import Mathlib

/-!
Verification of the core logic of the JUNGBUB365 daily-quote application:
date-keyed quote resolution and caching (`generateQuoteOfDay`, `loadQuoteByDate`),
the note signature codec (`stripSignature` / `appendSignature` via the
`DATE_SIGNATURE_REGEX` replace), favorites toggling (`toggleFavorite`),
note saving (`handleSaveNote`) and book-mode navigation
(`handleBookNavigate` / `getDateFromKey`).

The UI layer, local storage and the generative-AI client are external
collaborators; they appear as explicit parameters (an outcome value for the
AI call, function-typed maps for the persisted stores).
-/

namespace Jungbub

/-! ## Data model

A `DateKey` is the (month, day) pair serialized as `"M/D"` in the source; the
serialization is injective, so we keep the pair.  The per-date cache key
`quote_cache_v5_M_D` is likewise injective in (month, day), so the cache is a
map from `DateKey`. -/

abbrev DateKey := Nat × Nat

/-- `Quote` record from `types.ts`:
`{ quote: string, author: string, meaning: string, tags: string[] }`. -/
structure Quote where
  quote : String
  author : String
  meaning : String
  tags : List String
deriving DecidableEq

/-- `StoredQuote` from `types.ts`: `{ data, date (ISO string), viewedAt }`. -/
structure StoredQuote where
  data : Quote
  date : String
  viewedAt : Nat
deriving DecidableEq

/-- Failure modes of the generation collaborator: transport failure of
`ai.models.generateContent`, the explicit `throw new Error("Empty response")`
on an empty `response.text`, and a `JSON.parse` failure. -/
inductive GenError where
  | api : GenError
  | empty : GenError
  | parse : GenError
deriving DecidableEq

/-- Outcome of one call to the external generation collaborator, as observed
by `generateQuoteOfDay`'s try-block. -/
inductive GenOutcome where
  | apiError : GenOutcome
  | emptyResponse : GenOutcome
  | parseError : GenOutcome
  | ok : Quote → GenOutcome
deriving DecidableEq

/-- The try-block of `generateQuoteOfDay`: awaiting the AI call, the empty-text
check, and `JSON.parse`, each of which can throw. -/
def genAttempt : GenOutcome → Except GenError Quote
  | .apiError => .error .api
  | .emptyResponse => .error .empty
  | .parseError => .error .parse
  | .ok q => .ok q

/-- The hardcoded fallback quote returned by `generateQuoteOfDay`'s catch
branch (`geminiService.ts`). -/
def fallbackQuote : Quote :=
  { quote := "위대한 업적은 대개 커다란 희생을 치른 결과이다."
    author := ""
    meaning := ""
    tags := [] }

/-- JavaScript truthiness of `FIXED_QUOTES[dateKey]`: an absent key
(`undefined`) and the empty string are both falsy. -/
def truthyStr : Option String → Bool
  | none => false
  | some t => !(t == "")

/-- `generateQuoteOfDay` from `geminiService.ts`.

Modelled from the spec: `quotesData.ts` (`FIXED_QUOTES`, the fixed dataset
collaborator — "a static mapping from DateKey string to plain quote text") is
not among the provided sources, so the dataset is passed as the parameter
`fixedQuotes`.  The result is `Except`-valued to record whether the async
function rejects; the pair's Boolean records whether the AI collaborator was
invoked. -/
def generateQuoteOfDay (fixedQuotes : DateKey → Option String) (key : DateKey)
    (gen : GenOutcome) : Except GenError (Quote × Bool) :=
  let genPath : Except GenError (Quote × Bool) :=
    match genAttempt gen with
    | .ok q => .ok (q, true)
    | .error _ => .ok (fallbackQuote, true)
  match fixedQuotes key with
  | some t =>
      if t == "" then genPath
      else .ok ({ quote := t, author := "", meaning := "", tags := [] }, false)
  | none => genPath

/-- Result of one `loadQuoteByDate` call: the React state writes
(`setCurrentQuote`, `setSelectedDateKey`), the cache after the call, whether
the AI collaborator was invoked, and whether the `catch` branch of
`loadQuoteByDate` itself ran. -/
structure LoadResult where
  currentQuote : Option Quote
  selectedDateKey : Option DateKey
  cache : DateKey → Option Quote
  aiInvoked : Bool
  caught : Bool

/-- `loadQuoteByDate` as in the first `App` revision (`src/unnamed/part_000`
lines 54–88): the fixed-dataset branch does not write the cache. -/
def loadQuoteByDateA (fixedQuotes : DateKey → Option String) (key : DateKey)
    (forceRefresh : Bool) (cache : DateKey → Option Quote) (gen : GenOutcome) :
    LoadResult :=
  let genBranch : LoadResult :=
    match generateQuoteOfDay fixedQuotes key gen with
    | .ok (q, inv) =>
        { currentQuote := some q
          selectedDateKey := some key
          cache := fun k => if k = key then some q else cache k
          aiInvoked := inv
          caught := false }
    | .error _ =>
        { currentQuote := none
          selectedDateKey := none
          cache := cache
          aiInvoked := true
          caught := true }
  match fixedQuotes key with
  | some t =>
      if t == "" then
        match forceRefresh, cache key with
        | false, some c =>
            { currentQuote := some c
              selectedDateKey := some key
              cache := cache
              aiInvoked := false
              caught := false }
        | _, _ => genBranch
      else
        { currentQuote := some { quote := t, author := "", meaning := "", tags := [] }
          selectedDateKey := some key
          cache := cache
          aiInvoked := false
          caught := false }
  | none =>
      match forceRefresh, cache key with
      | false, some c =>
          { currentQuote := some c
            selectedDateKey := some key
            cache := cache
            aiInvoked := false
            caught := false }
      | _, _ => genBranch

/-- `loadQuoteByDate` as in the second `App` revision (`src/unnamed/part_000`
lines 436–480): identical except that the fixed-dataset branch also writes the
fixed quote into the cache (`localStorage.setItem(cacheKey, ...)`). -/
def loadQuoteByDateB (fixedQuotes : DateKey → Option String) (key : DateKey)
    (forceRefresh : Bool) (cache : DateKey → Option Quote) (gen : GenOutcome) :
    LoadResult :=
  let genBranch : LoadResult :=
    match generateQuoteOfDay fixedQuotes key gen with
    | .ok (q, inv) =>
        { currentQuote := some q
          selectedDateKey := some key
          cache := fun k => if k = key then some q else cache k
          aiInvoked := inv
          caught := false }
    | .error _ =>
        { currentQuote := none
          selectedDateKey := none
          cache := cache
          aiInvoked := true
          caught := true }
  match fixedQuotes key with
  | some t =>
      if t == "" then
        match forceRefresh, cache key with
        | false, some c =>
            { currentQuote := some c
              selectedDateKey := some key
              cache := cache
              aiInvoked := false
              caught := false }
        | _, _ => genBranch
      else
        let fixedQuote : Quote := { quote := t, author := "", meaning := "", tags := [] }
        { currentQuote := some fixedQuote
          selectedDateKey := some key
          cache := fun k => if k = key then some fixedQuote else cache k
          aiInvoked := false
          caught := false }
  | none =>
      match forceRefresh, cache key with
      | false, some c =>
          { currentQuote := some c
            selectedDateKey := some key
            cache := cache
            aiInvoked := false
            caught := false }
      | _, _ => genBranch

/-! Sample instantiations used by witnesses. -/

/-- A small concrete stand-in for the fixed dataset. -/
def fixedSample : DateKey → Option String :=
  fun k => if k = (1, 1) then some "삶은 역설이다." else none

/-- The empty cache. -/
def emptyCache : DateKey → Option Quote := fun _ => none

/-! ## Note signature codec

The source works on JavaScript strings; we embed note text as `List Char`.
`DATE_SIGNATURE_REGEX` is `\n\n — \d{4}\. \d{1,2}\. \d{1,2}\.$` (no `m` or
`g` flag), and stripping is `text.replace(DATE_SIGNATURE_REGEX, '')`: the
leftmost match — which, because of the `$` anchor, always extends to the end
of the string — is deleted. -/

/-- The decimal digit character for `n < 10`. -/
def digitChar (n : Nat) : Char := Char.ofNat (48 + n)

/-- Little-endian digit characters of `n`; `fuel ≥ n` suffices. -/
def natCharsAux : Nat → Nat → List Char
  | 0, _ => []
  | _ + 1, 0 => []
  | fuel + 1, n + 1 => digitChar ((n + 1) % 10) :: natCharsAux fuel ((n + 1) / 10)

/-- Decimal representation of a natural number, as JavaScript template
interpolation `${n}` renders it (no padding, no leading zeros). -/
def natChars (n : Nat) : List Char :=
  if n = 0 then ['0'] else (natCharsAux n n).reverse

/-- The signature appended by `handleSaveNote`:
`"\n\n — ${year}. ${month}. ${day}."` with unpadded numbers. -/
def signature (y m d : Nat) : List Char :=
  '\n' :: '\n' :: ' ' :: '—' :: ' ' ::
    (natChars y ++ '.' :: ' ' :: (natChars m ++ '.' :: ' ' :: (natChars d ++ ['.'])))

/-- `appendSignature` of the spec's NoteCodec: save-time concatenation of the
(already trimmed) user text and the date signature. -/
def appendSignature (t : List Char) (y m d : Nat) : List Char :=
  t ++ signature y m d

/-- Whole-string match of the regex tail `\. \d{1,2}\. \d{1,2}\.`
(dot, space, 1–2 digit month, dot, space, 1–2 digit day, dot). -/
def tailMatch : List Char → Bool
  | [a, b, c, d, e, f, g] =>
      a == '.' && b == ' ' && c.isDigit && d == '.' && e == ' ' && f.isDigit && g == '.'
  | [a, b, c, d, e, f, g, h] =>
      (a == '.' && b == ' ' && c.isDigit && d == '.' && e == ' ' &&
        f.isDigit && g.isDigit && h == '.') ||
      (a == '.' && b == ' ' && c.isDigit && d.isDigit && e == '.' && f == ' ' &&
        g.isDigit && h == '.')
  | [a, b, c, d, e, f, g, h, i] =>
      a == '.' && b == ' ' && c.isDigit && d.isDigit && e == '.' && f == ' ' &&
        g.isDigit && h.isDigit && i == '.'
  | _ => false

/-- Whole-string match of `DATE_SIGNATURE_REGEX` without the `$` anchor:
`u` is entirely of the form `\n\n — \d{4}\. \d{1,2}\. \d{1,2}\.`.
A regex match starting at position `p` that satisfies the `$` anchor covers
exactly the suffix from `p`, i.e. `sigMatch (s.drop p)`. -/
def sigMatch : List Char → Bool
  | c1 :: c2 :: c3 :: c4 :: c5 :: y1 :: y2 :: y3 :: y4 :: rest =>
      c1 == '\n' && c2 == '\n' && c3 == ' ' && c4 == '—' && c5 == ' ' &&
        y1.isDigit && y2.isDigit && y3.isDigit && y4.isDigit && tailMatch rest
  | _ => false

/-- Position of the leftmost regex match (JavaScript `replace` replaces the
leftmost match of a non-global regex). -/
def firstSigPos : List Char → Option Nat
  | [] => if sigMatch [] then some 0 else none
  | c :: rest =>
      if sigMatch (c :: rest) then some 0 else (firstSigPos rest).map (· + 1)

/-- `text.replace(DATE_SIGNATURE_REGEX, '')`: delete the leftmost match,
which runs to the end of the string; otherwise return the text unchanged. -/
def stripSignature (s : List Char) : List Char :=
  match firstSigPos s with
  | some p => s.take p
  | none => s

/-- JavaScript `String.trim()` on the characters the app can produce:
whitespace (space, tab, newline, carriage return) removed from both ends. -/
def trim (s : List Char) : List Char :=
  ((s.dropWhile Char.isWhitespace).reverse.dropWhile Char.isWhitespace).reverse

/-- Number of consecutive trailing signature suffixes on a stored note text:
how many times `stripSignature` removes a match before reaching a fixpoint.
`fuel ≥ s.length` suffices since every removed match is nonempty. -/
def trailingSigCountAux : Nat → List Char → Nat
  | 0, _ => 0
  | fuel + 1, s =>
      match firstSigPos s with
      | some p => 1 + trailingSigCountAux fuel (s.take p)
      | none => 0

/-- Number of trailing signature suffixes on a note text. -/
def trailingSigCount (s : List Char) : Nat :=
  trailingSigCountAux s.length s

/-! ## Notes map and app state -/

/-- The stored-note update performed by `handleSaveNote` for the current
date's `"YYYY-MM-DD"` key: empty trimmed text deletes the entry
(`delete newNotes[currentNoteDateKey]`), otherwise the trimmed text plus the
date signature is stored. -/
def handleSaveNote (notes : String → Option (List Char)) (key : String)
    (noteText : List Char) (y m d : Nat) : String → Option (List Char) :=
  if trim noteText = [] then
    fun k => if k = key then none else notes k
  else
    fun k => if k = key then some (trim noteText ++ signature y m d) else notes k

/-- The note value stored (or `none` for deleted) for the edited date after
one `handleSaveNote`, independent of the previous stored value. -/
def saveNoteText (noteText : List Char) (y m d : Nat) : Option (List Char) :=
  if trim noteText = [] then none else some (trim noteText ++ signature y m d)

/-- A save operation: editor text and the save-time date. -/
structure SaveOp where
  text : List Char
  year : Nat
  month : Nat
  day : Nat

/-- The stored note for one date after a sequence of saves for that date
(each save overwrites or deletes regardless of the previous value). -/
def runSaveOps (init : Option (List Char)) (ops : List SaveOp) :
    Option (List Char) :=
  ops.foldl (fun _ op => saveNoteText op.text op.year op.month op.day) init

/-- The persisted app state touched by the `App` handlers: notes map,
favorites list, per-date quote cache, and the book-mode bookmark. -/
structure AppState where
  notes : String → Option (List Char)
  favorites : List StoredQuote
  cache : DateKey → Option Quote
  bookmark : Option String

/-- `handleSaveNote` at the level of the whole app state: both branches write
only the notes map (`setNotes` + `localStorage.setItem(NOTES_KEY, ...)`). -/
def handleSaveNoteSt (st : AppState) (key : String) (noteText : List Char)
    (y m d : Nat) : AppState :=
  { st with notes := handleSaveNote st.notes key noteText y m d }

/-! ## Favorites -/

/-- `toggleFavorite`: if some favorite has the current quote's text, remove
every favorite with that text; otherwise append one new entry at the end. -/
def toggleFavorite (favorites : List StoredQuote) (current : Quote)
    (dateStr : String) (now : Nat) : List StoredQuote :=
  if favorites.any (fun f => f.data.quote == current.quote) then
    favorites.filter (fun f => !(f.data.quote == current.quote))
  else
    favorites ++ [{ data := current, date := dateStr, viewedAt := now }]

/-- A sequence of `toggleFavorite` operations starting from the empty list. -/
def runToggles (ops : List (Quote × String × Nat)) : List StoredQuote :=
  ops.foldl (fun favs op => toggleFavorite favs op.1 op.2.1 op.2.2) []

/-- No two favorites share the same quote text. -/
def UniqueTexts (l : List StoredQuote) : Prop :=
  l.Pairwise (fun a b => a.data.quote ≠ b.data.quote)

/-! ## Book-mode navigation dates

JavaScript `Date` normalization for the operations the app uses.
`setMonth(m)` keeps the current day-of-month and normalizes overflow into
later months; `setDate(n)` sets the day-of-month, where `n = 0` means the
last day of the previous month (the code only calls it with
`getDate() ± 1 ≥ 0`). Months are 1-based here; the code's
`setMonth(month - 1)` with a 1-based key month corresponds to
`setMonthJs _ month`. -/

/-- A calendar date as JavaScript `Date` holds it (year, 1-based month, day). -/
structure CalDate where
  year : Nat
  month : Nat
  day : Nat
deriving DecidableEq

/-- Gregorian leap-year rule used by JavaScript `Date`. -/
def isLeap (y : Nat) : Bool :=
  (y % 4 == 0 && !(y % 100 == 0)) || y % 400 == 0

/-- Days in a month (1-based). -/
def daysInMonth (y m : Nat) : Nat :=
  if m = 2 then (if isLeap y then 29 else 28)
  else if m = 4 ∨ m = 6 ∨ m = 9 ∨ m = 11 then 30
  else 31

/-- Normalize an overflowing day-of-month forward into later months. -/
def rollForward : Nat → Nat → Nat → Nat → CalDate
  | 0, y, m, d => ⟨y, m, d⟩
  | fuel + 1, y, m, d =>
      if d ≤ daysInMonth y m then ⟨y, m, d⟩
      else if m = 12 then rollForward fuel (y + 1) 1 (d - daysInMonth y 12)
      else rollForward fuel y (m + 1) (d - daysInMonth y m)

/-- JavaScript `setMonth`: keep the day-of-month, normalize overflow. -/
def setMonthJs (dt : CalDate) (m : Nat) : CalDate :=
  rollForward dt.day dt.year m dt.day

/-- JavaScript `setDate` for the arguments the app uses (`≥ 0`). -/
def setDateJs (dt : CalDate) (n : Nat) : CalDate :=
  if n = 0 then
    if dt.month = 1 then ⟨dt.year - 1, 12, 31⟩
    else ⟨dt.year, dt.month - 1, daysInMonth dt.year (dt.month - 1)⟩
  else rollForward n dt.year dt.month n

/-- `getDateFromKey`: `new Date()` (the ambient current date `today`), then
`setMonth(month - 1)`, then `setDate(day)`. -/
def getDateFromKey (today : CalDate) (m d : Nat) : CalDate :=
  setDateJs (setMonthJs today m) d

/-- `handleBookNavigate`: parse the selected key, add or subtract one day via
`setDate(getDate() ± 1)`, and return the new `"M/D"` key (which is persisted
as the bookmark and drives the next resolution). -/
def handleBookNavigate (today : CalDate) (key : Nat × Nat) (next : Bool) :
    Nat × Nat :=
  let currentDate := getDateFromKey today key.1 key.2
  let nextDate :=
    setDateJs currentDate (if next then currentDate.day + 1 else currentDate.day - 1)
  (nextDate.month, nextDate.day)

/-- Helper to state concrete examples over string literals. -/
def strOf (s : String) : List Char := s.toList

/-! ## Claims about quote resolution -/

/-- Claim C1: for every date whose `DateKey` is present in the fixed dataset
(with a truthy, i.e. nonempty, entry), both `loadQuoteByDate` revisions and
`generateQuoteOfDay` return a record whose text is exactly the dataset entry
with empty author/meaning/tags, for both values of `forceRefresh` and every
prior cache state, and the generation collaborator is never invoked. -/
theorem resolve_fixed_dataset (fixedQuotes : DateKey → Option String)
    (key : DateKey) (t : String) (forceRefresh : Bool)
    (cache : DateKey → Option Quote) (gen : GenOutcome)
    (hfix : fixedQuotes key = some t) (ht : t ≠ "") :
    (loadQuoteByDateA fixedQuotes key forceRefresh cache gen).currentQuote =
      some { quote := t, author := "", meaning := "", tags := [] } ∧
    (loadQuoteByDateA fixedQuotes key forceRefresh cache gen).aiInvoked = false ∧
    (loadQuoteByDateB fixedQuotes key forceRefresh cache gen).currentQuote =
      some { quote := t, author := "", meaning := "", tags := [] } ∧
    (loadQuoteByDateB fixedQuotes key forceRefresh cache gen).aiInvoked = false ∧
    generateQuoteOfDay fixedQuotes key gen =
      .ok ({ quote := t, author := "", meaning := "", tags := [] }, false) := by
  have hb : (t == "") = false := by
    simp [ht]
  simp [loadQuoteByDateA, loadQuoteByDateB, generateQuoteOfDay, hfix, hb]

/-- Witness for C1 at a concrete dataset, key and cache state. -/
theorem resolve_fixed_dataset_witness :
    (loadQuoteByDateA fixedSample (1, 1) true emptyCache .apiError).currentQuote =
      some { quote := "삶은 역설이다.", author := "", meaning := "", tags := [] } ∧
    (loadQuoteByDateA fixedSample (1, 1) true emptyCache .apiError).aiInvoked = false ∧
    (loadQuoteByDateB fixedSample (1, 1) true emptyCache .apiError).currentQuote =
      some { quote := "삶은 역설이다.", author := "", meaning := "", tags := [] } ∧
    (loadQuoteByDateB fixedSample (1, 1) true emptyCache .apiError).aiInvoked = false ∧
    generateQuoteOfDay fixedSample (1, 1) .apiError =
      .ok ({ quote := "삶은 역설이다.", author := "", meaning := "", tags := [] }, false) :=
  resolve_fixed_dataset fixedSample (1, 1) "삶은 역설이다." true emptyCache .apiError
    (by decide) (by decide)

/-- Counterexample to Claim C2: on a dataset-absent date with an empty cache
and a failing generation collaborator, `loadQuoteByDate` does populate the
cache entry for that `DateKey` (with the fallback record), contrary to the
claim that the entry is left empty so that generation can be retried. -/
theorem gen_failure_cache_counterexample :
    ¬ ((loadQuoteByDateA (fun _ => none) (11, 3) false emptyCache .apiError).cache
        (11, 3) = none) := by
  decide

/-- Claim C2 (amended): on a dataset-absent date, when the generation
collaborator fails (API error, empty payload, or malformed payload), both
`loadQuoteByDate` revisions display the hardcoded fallback record and the
failure is never surfaced (the caller's catch branch does not run) — but the
cache entry for that `DateKey` is populated with the fallback record, so a
later non-forced call returns the cached fallback instead of retrying. -/
theorem gen_failure_fallback (fixedQuotes : DateKey → Option String)
    (key : DateKey) (forceRefresh : Bool) (cache : DateKey → Option Quote)
    (gen : GenOutcome) (e : GenError)
    (hfix : fixedQuotes key = none)
    (hmiss : forceRefresh = true ∨ cache key = none)
    (hgen : genAttempt gen = .error e) :
    (loadQuoteByDateA fixedQuotes key forceRefresh cache gen).currentQuote =
      some fallbackQuote ∧
    (loadQuoteByDateA fixedQuotes key forceRefresh cache gen).caught = false ∧
    (loadQuoteByDateA fixedQuotes key forceRefresh cache gen).cache key =
      some fallbackQuote ∧
    (loadQuoteByDateB fixedQuotes key forceRefresh cache gen).currentQuote =
      some fallbackQuote ∧
    (loadQuoteByDateB fixedQuotes key forceRefresh cache gen).caught = false ∧
    (loadQuoteByDateB fixedQuotes key forceRefresh cache gen).cache key =
      some fallbackQuote := by
  rcases hmiss with hforce | hnone
  · subst hforce
    simp [loadQuoteByDateA, loadQuoteByDateB, generateQuoteOfDay, hfix, hgen]
  · cases forceRefresh <;>
      simp [loadQuoteByDateA, loadQuoteByDateB, generateQuoteOfDay, hfix, hnone, hgen]

/-- Witness for the amended C2 at a concrete input. -/
theorem gen_failure_fallback_witness :
    (loadQuoteByDateA (fun _ => none) (11, 3) false emptyCache .apiError).currentQuote =
      some fallbackQuote ∧
    (loadQuoteByDateA (fun _ => none) (11, 3) false emptyCache .apiError).caught = false ∧
    (loadQuoteByDateA (fun _ => none) (11, 3) false emptyCache .apiError).cache (11, 3) =
      some fallbackQuote ∧
    (loadQuoteByDateB (fun _ => none) (11, 3) false emptyCache .apiError).currentQuote =
      some fallbackQuote ∧
    (loadQuoteByDateB (fun _ => none) (11, 3) false emptyCache .apiError).caught = false ∧
    (loadQuoteByDateB (fun _ => none) (11, 3) false emptyCache .apiError).cache (11, 3) =
      some fallbackQuote :=
  gen_failure_fallback (fun _ => none) (11, 3) false emptyCache .apiError .api
    rfl (Or.inr rfl) rfl

/-- Claim C3: on a dataset-absent date, a first resolution with no cache
entry invokes generation and stores its displayed result under the date's
cache key; a subsequent call with `forceRefresh = false` against the updated
cache returns exactly that value without invoking generation; and any call
with `forceRefresh = true` invokes generation even when a cache entry exists.
Both `loadQuoteByDate` revisions are covered. -/
theorem cache_policy (fixedQuotes : DateKey → Option String) (key : DateKey)
    (forceRefresh : Bool) (cache : DateKey → Option Quote) (gen gen' : GenOutcome)
    (hfix : fixedQuotes key = none) (hmiss : cache key = none) :
    ((loadQuoteByDateA fixedQuotes key forceRefresh cache gen).aiInvoked = true ∧
      (loadQuoteByDateA fixedQuotes key forceRefresh cache gen).cache key =
        (loadQuoteByDateA fixedQuotes key forceRefresh cache gen).currentQuote ∧
      ((loadQuoteByDateA fixedQuotes key forceRefresh cache gen).currentQuote).isSome = true ∧
      (loadQuoteByDateA fixedQuotes key false
          (loadQuoteByDateA fixedQuotes key forceRefresh cache gen).cache gen').currentQuote =
        (loadQuoteByDateA fixedQuotes key forceRefresh cache gen).currentQuote ∧
      (loadQuoteByDateA fixedQuotes key false
          (loadQuoteByDateA fixedQuotes key forceRefresh cache gen).cache gen').aiInvoked =
        false) ∧
    ((loadQuoteByDateB fixedQuotes key forceRefresh cache gen).aiInvoked = true ∧
      (loadQuoteByDateB fixedQuotes key forceRefresh cache gen).cache key =
        (loadQuoteByDateB fixedQuotes key forceRefresh cache gen).currentQuote ∧
      ((loadQuoteByDateB fixedQuotes key forceRefresh cache gen).currentQuote).isSome = true ∧
      (loadQuoteByDateB fixedQuotes key false
          (loadQuoteByDateB fixedQuotes key forceRefresh cache gen).cache gen').currentQuote =
        (loadQuoteByDateB fixedQuotes key forceRefresh cache gen).currentQuote ∧
      (loadQuoteByDateB fixedQuotes key false
          (loadQuoteByDateB fixedQuotes key forceRefresh cache gen).cache gen').aiInvoked =
        false) ∧
    (∀ cache2 : DateKey → Option Quote, (cache2 key).isSome = true →
      (loadQuoteByDateA fixedQuotes key true cache2 gen').aiInvoked = true ∧
      (loadQuoteByDateB fixedQuotes key true cache2 gen').aiInvoked = true) := by
  refine ⟨?_, ?_, ?_⟩
  · cases forceRefresh <;>
      rcases gen with _ | _ | _ | q <;>
        simp [loadQuoteByDateA, generateQuoteOfDay, genAttempt, hfix, hmiss]
  · cases forceRefresh <;>
      rcases gen with _ | _ | _ | q <;>
        simp [loadQuoteByDateB, generateQuoteOfDay, genAttempt, hfix, hmiss]
  · intro cache2 hc2
    rcases gen' with _ | _ | _ | q <;>
      simp [loadQuoteByDateA, loadQuoteByDateB, generateQuoteOfDay, genAttempt, hfix]

/-- Witness for C3 at a concrete dataset-absent key and empty cache. -/
theorem cache_policy_witness :
    ((loadQuoteByDateA fixedSample (11, 3) false emptyCache
        (.ok fallbackQuote)).aiInvoked = true ∧
      (loadQuoteByDateA fixedSample (11, 3) false emptyCache (.ok fallbackQuote)).cache (11, 3) =
        (loadQuoteByDateA fixedSample (11, 3) false emptyCache (.ok fallbackQuote)).currentQuote ∧
      ((loadQuoteByDateA fixedSample (11, 3) false emptyCache
          (.ok fallbackQuote)).currentQuote).isSome = true ∧
      (loadQuoteByDateA fixedSample (11, 3) false
          (loadQuoteByDateA fixedSample (11, 3) false emptyCache (.ok fallbackQuote)).cache
          .apiError).currentQuote =
        (loadQuoteByDateA fixedSample (11, 3) false emptyCache (.ok fallbackQuote)).currentQuote ∧
      (loadQuoteByDateA fixedSample (11, 3) false
          (loadQuoteByDateA fixedSample (11, 3) false emptyCache (.ok fallbackQuote)).cache
          .apiError).aiInvoked = false) ∧
    ((loadQuoteByDateB fixedSample (11, 3) false emptyCache
        (.ok fallbackQuote)).aiInvoked = true ∧
      (loadQuoteByDateB fixedSample (11, 3) false emptyCache (.ok fallbackQuote)).cache (11, 3) =
        (loadQuoteByDateB fixedSample (11, 3) false emptyCache (.ok fallbackQuote)).currentQuote ∧
      ((loadQuoteByDateB fixedSample (11, 3) false emptyCache
          (.ok fallbackQuote)).currentQuote).isSome = true ∧
      (loadQuoteByDateB fixedSample (11, 3) false
          (loadQuoteByDateB fixedSample (11, 3) false emptyCache (.ok fallbackQuote)).cache
          .apiError).currentQuote =
        (loadQuoteByDateB fixedSample (11, 3) false emptyCache (.ok fallbackQuote)).currentQuote ∧
      (loadQuoteByDateB fixedSample (11, 3) false
          (loadQuoteByDateB fixedSample (11, 3) false emptyCache (.ok fallbackQuote)).cache
          .apiError).aiInvoked = false) ∧
    (∀ cache2 : DateKey → Option Quote, (cache2 (11, 3)).isSome = true →
      (loadQuoteByDateA fixedSample (11, 3) true cache2 .apiError).aiInvoked = true ∧
      (loadQuoteByDateB fixedSample (11, 3) true cache2 .apiError).aiInvoked = true) :=
  cache_policy fixedSample (11, 3) false emptyCache (.ok fallbackQuote) .apiError
    (by decide) rfl

/-- Claim C9: `generateQuoteOfDay` is total — it always resolves with `.ok`;
on any internal failure (API error, JSON parse error, empty response text) on
a dataset-absent (falsy) key it resolves with the specific hardcoded fallback
record; consequently the catch branch of `loadQuoteByDate` never runs, in
either revision. -/
theorem generateQuoteOfDay_total (fixedQuotes : DateKey → Option String)
    (key : DateKey) (gen : GenOutcome) (forceRefresh : Bool)
    (cache : DateKey → Option Quote) :
    (∃ qb, generateQuoteOfDay fixedQuotes key gen = .ok qb) ∧
    (truthyStr (fixedQuotes key) = false →
      ∀ e, genAttempt gen = .error e →
        generateQuoteOfDay fixedQuotes key gen = .ok (fallbackQuote, true)) ∧
    (loadQuoteByDateA fixedQuotes key forceRefresh cache gen).caught = false ∧
    (loadQuoteByDateB fixedQuotes key forceRefresh cache gen).caught = false := by
  have htotal : ∃ qb, generateQuoteOfDay fixedQuotes key gen = .ok qb := by
    rcases hk : fixedQuotes key with _ | t <;> rcases gen with _ | _ | _ | q <;>
      simp [generateQuoteOfDay, genAttempt, hk] <;>
        rcases eq_or_ne t "" with ht | ht <;> simp [ht]
  refine ⟨htotal, ?_, ?_, ?_⟩
  · intro hfalsy e hgen
    rcases hk : fixedQuotes key with _ | t
    · simp [generateQuoteOfDay, hk, hgen]
    · have ht : t = "" := by
        by_contra ht
        simp [truthyStr, hk, ht] at hfalsy
      subst ht
      simp [generateQuoteOfDay, hk, hgen]
  · obtain ⟨qb, hqb⟩ := htotal
    rcases hk : fixedQuotes key with _ | t
    · cases forceRefresh <;> rcases hc : cache key with _ | c <;>
        simp [loadQuoteByDateA, hk, hc, hqb]
    · rcases eq_or_ne t "" with ht | ht <;>
        cases forceRefresh <;> rcases hc : cache key with _ | c <;>
          simp [loadQuoteByDateA, hk, hc, ht, hqb]
  · obtain ⟨qb, hqb⟩ := htotal
    rcases hk : fixedQuotes key with _ | t
    · cases forceRefresh <;> rcases hc : cache key with _ | c <;>
        simp [loadQuoteByDateB, hk, hc, hqb]
    · rcases eq_or_ne t "" with ht | ht <;>
        cases forceRefresh <;> rcases hc : cache key with _ | c <;>
          simp [loadQuoteByDateB, hk, hc, ht, hqb]

/-- Witness for C9: a parse failure on a dataset-absent key yields the
fallback and the caller's catch branch does not run. -/
theorem generateQuoteOfDay_total_witness :
    (∃ qb, generateQuoteOfDay (fun _ => none) (2, 2) .parseError = .ok qb) ∧
    (truthyStr ((fun (_ : DateKey) => (none : Option String)) (2, 2)) = false →
      ∀ e, genAttempt .parseError = .error e →
        generateQuoteOfDay (fun _ => none) (2, 2) .parseError = .ok (fallbackQuote, true)) ∧
    (loadQuoteByDateA (fun _ => none) (2, 2) false emptyCache .parseError).caught = false ∧
    (loadQuoteByDateB (fun _ => none) (2, 2) false emptyCache .parseError).caught = false :=
  generateQuoteOfDay_total (fun _ => none) (2, 2) .parseError false emptyCache

/-! ## Claims about notes and favorites -/

/-- Claim C7: saving with candidate text whose trimmed form is empty deletes
the date's entry from the notes map entirely, also when an entry exists. -/
theorem saveNote_whitespace_deletes (notes : String → Option (List Char))
    (key : String) (noteText old : List Char) (y m d : Nat)
    (_hold : notes key = some old) (hws : trim noteText = []) :
    handleSaveNote notes key noteText y m d key = none := by
  simp [handleSaveNote, hws]

/-- Witness for C7: whitespace-only text `"   "` deletes an existing note. -/
theorem saveNote_whitespace_deletes_witness :
    handleSaveNote
      (fun k => if k = "2025-01-01" then some (strOf "기록") else none)
      "2025-01-01" (strOf "   ") 2025 1 2 "2025-01-01" = none :=
  saveNote_whitespace_deletes _ "2025-01-01" (strOf "   ") (strOf "기록")
    2025 1 2 (by decide) (by decide)

/-- Claim C10: `handleSaveNote` modifies at most the notes entry of the
currently displayed date; every other date's note, the favorites list, the
quote cache, and the bookmark are unchanged, on both the save path and the
empty-text delete path. -/
theorem handleSaveNote_frame (st : AppState) (key : String)
    (noteText : List Char) (y m d : Nat) (k' : String) (hk : k' ≠ key) :
    (handleSaveNoteSt st key noteText y m d).notes k' = st.notes k' ∧
    (handleSaveNoteSt st key noteText y m d).favorites = st.favorites ∧
    (handleSaveNoteSt st key noteText y m d).cache = st.cache ∧
    (handleSaveNoteSt st key noteText y m d).bookmark = st.bookmark := by
  refine ⟨?_, rfl, rfl, rfl⟩
  by_cases hws : trim noteText = [] <;> simp [handleSaveNoteSt, handleSaveNote, hws, hk]

/-- Witness for C10 at a concrete state, both for the delete path (text
`"  "`) and trivially for the untouched stores. -/
theorem handleSaveNote_frame_witness :
    (handleSaveNoteSt
        { notes := fun k => if k = "2025-01-01" then some (strOf "기록") else none
          favorites := [], cache := emptyCache, bookmark := some "1/1" }
        "2025-01-02" (strOf "  ") 2025 1 2).notes "2025-01-01" =
      some (strOf "기록") ∧
    (handleSaveNoteSt
        { notes := fun k => if k = "2025-01-01" then some (strOf "기록") else none
          favorites := [], cache := emptyCache, bookmark := some "1/1" }
        "2025-01-02" (strOf "  ") 2025 1 2).favorites = [] ∧
    (handleSaveNoteSt
        { notes := fun k => if k = "2025-01-01" then some (strOf "기록") else none
          favorites := [], cache := emptyCache, bookmark := some "1/1" }
        "2025-01-02" (strOf "  ") 2025 1 2).cache = emptyCache ∧
    (handleSaveNoteSt
        { notes := fun k => if k = "2025-01-01" then some (strOf "기록") else none
          favorites := [], cache := emptyCache, bookmark := some "1/1" }
        "2025-01-02" (strOf "  ") 2025 1 2).bookmark = some "1/1" := by
  have h := handleSaveNote_frame
    { notes := fun k => if k = "2025-01-01" then some (strOf "기록") else none
      favorites := [], cache := emptyCache, bookmark := some "1/1" }
    "2025-01-02" (strOf "  ") 2025 1 2 "2025-01-01" (by decide)
  exact ⟨by rw [h.1]; decide, h.2.1, h.2.2.1, h.2.2.2⟩

/-- One `toggleFavorite` step preserves uniqueness of quote texts. -/
theorem uniqueTexts_toggleFavorite (favs : List StoredQuote) (q : Quote)
    (ds : String) (n : Nat) (h : UniqueTexts favs) :
    UniqueTexts (toggleFavorite favs q ds n) := by
  unfold toggleFavorite
  by_cases hany : favs.any (fun f => f.data.quote == q.quote) = true
  · rw [if_pos hany]
    exact h.filter _
  · rw [if_neg hany]
    rw [UniqueTexts, List.pairwise_append]
    refine ⟨h, List.pairwise_singleton _ _, ?_⟩
    intro a ha b hb
    have hb' : b = { data := q, date := ds, viewedAt := n } := by
      simpa using hb
    subst hb'
    have := List.any_eq_true.not.mp hany
    push_neg at this
    have ha' := this a ha
    simpa using ha'

/-- Claim C8: favorites are keyed by quote text in insertion order — after
any sequence of toggles starting from the empty list no two entries share a
text; toggling a quote whose text is stored removes every entry with that
text; toggling a quote whose text is not stored appends exactly one entry at
the end. -/
theorem toggleFavorite_props (ops : List (Quote × String × Nat))
    (favs : List StoredQuote) (q : Quote) (ds : String) (n : Nat) :
    UniqueTexts (runToggles ops) ∧
    ((∃ f ∈ favs, f.data.quote = q.quote) →
      ∀ g ∈ toggleFavorite favs q ds n, g.data.quote ≠ q.quote) ∧
    ((∀ f ∈ favs, f.data.quote ≠ q.quote) →
      toggleFavorite favs q ds n = favs ++ [{ data := q, date := ds, viewedAt := n }]) := by
  refine ⟨?_, ?_, ?_⟩
  · have main : ∀ (l : List (Quote × String × Nat)) (acc : List StoredQuote),
        UniqueTexts acc →
        UniqueTexts (l.foldl (fun favs op => toggleFavorite favs op.1 op.2.1 op.2.2) acc) := by
      intro l
      induction l with
      | nil => intro acc hacc; exact hacc
      | cons op rest ih =>
          intro acc hacc
          exact ih _ (uniqueTexts_toggleFavorite acc op.1 op.2.1 op.2.2 hacc)
    exact main ops [] List.Pairwise.nil
  · intro hmem g hg
    have hany : favs.any (fun f => f.data.quote == q.quote) = true := by
      obtain ⟨f, hf, hfq⟩ := hmem
      exact List.any_eq_true.mpr ⟨f, hf, by simpa using hfq⟩
    rw [toggleFavorite, if_pos hany] at hg
    have := List.of_mem_filter hg
    simpa using this
  · intro hnone
    have hany : favs.any (fun f => f.data.quote == q.quote) = false := by
      rw [List.any_eq_false]
      intro f hf
      simpa using hnone f hf
    rw [toggleFavorite, hany]
    simp

/-- Witness for C8: toggling onto an empty favorites list appends the single
new entry, and a toggle sequence that adds then removes one text is
duplicate-free. -/
theorem toggleFavorite_props_witness :
    toggleFavorite [] fallbackQuote "2025-01-01" 7 =
      [] ++ [{ data := fallbackQuote, date := "2025-01-01", viewedAt := 7 }] :=
  (toggleFavorite_props [] [] fallbackQuote "2025-01-01" 7).2.2 (by simp)

/-! ## Claim about book-mode navigation (C6)

`getDateFromKey` evaluates `new Date()` first and then `setMonth`/`setDate`;
when the ambient current day-of-month overflows the target month,
`setMonth` rolls into the following month before `setDate` runs, so the
parsed date lands in the wrong month.  With the ambient date 2025-01-31,
the key `"2/15"` parses to March 15, and the next/prev round trip through
`handleBookNavigate` ends at `"3/15"` instead of returning to `"2/15"`. -/

/-- Claim C6 fails on the code: with ambient current date 2025-01-31,
navigating next from key `"2/15"` yields `"3/16"` (not `"2/16"`), and
navigating prev from there yields `"3/15"`, not the original `"2/15"`. -/
theorem bookNavigate_roundtrip_bug :
    getDateFromKey ⟨2025, 1, 31⟩ 2 15 = ⟨2025, 3, 15⟩ ∧
    handleBookNavigate ⟨2025, 1, 31⟩ (2, 15) true = (3, 16) ∧
    handleBookNavigate ⟨2025, 1, 31⟩ (3, 16) false = (3, 15) ∧
    (3, 15) ≠ ((2 : Nat), (15 : Nat)) := by
  decide

/-! ## Claims about the note signature codec (C4, C5) -/

theorem natCharsAux_zero : ∀ fuel, natCharsAux fuel 0 = [] := by
  intro fuel
  cases fuel <;> rfl

theorem digitChar_isDigit {n : Nat} (h : n < 10) : (digitChar n).isDigit = true := by
  interval_cases n <;> decide

theorem natCharsAux_digits : ∀ fuel n c, c ∈ natCharsAux fuel n → c.isDigit = true := by
  intro fuel
  induction fuel with
  | zero => intro n c hc; simp [natCharsAux] at hc
  | succ f ih =>
      intro n c hc
      cases n with
      | zero => simp [natCharsAux] at hc
      | succ k =>
          rw [natCharsAux] at hc
          rcases List.mem_cons.mp hc with hc | hc
          · subst hc
            exact digitChar_isDigit (Nat.mod_lt _ (by omega))
          · exact ih _ _ hc

theorem natChars_digits (n : Nat) : ∀ c ∈ natChars n, c.isDigit = true := by
  intro c hc
  rw [natChars] at hc
  split at hc
  · simp at hc
    subst hc
    decide
  · exact natCharsAux_digits n n c (List.mem_reverse.mp hc)

theorem natCharsAux_len1 : ∀ fuel n, 0 < n → n < 10 → 0 < fuel →
    (natCharsAux fuel n).length = 1 := by
  intro fuel n h1 h2 hf
  cases fuel with
  | zero => omega
  | succ f =>
      cases n with
      | zero => omega
      | succ k =>
          rw [natCharsAux]
          have : (k + 1) / 10 = 0 := Nat.div_eq_of_lt h2
          rw [this, natCharsAux_zero]
          rfl

theorem natCharsAux_len2 : ∀ fuel n, 10 ≤ n → n < 100 → n ≤ fuel →
    (natCharsAux fuel n).length = 2 := by
  intro fuel n h1 h2 hf
  cases fuel with
  | zero => omega
  | succ f =>
      cases n with
      | zero => omega
      | succ k =>
          rw [natCharsAux]
          have hd : 0 < (k + 1) / 10 := Nat.div_pos h1 (by omega)
          have hd2 : (k + 1) / 10 < 10 := by omega
          have hlt : (k + 1) / 10 < k + 1 := Nat.div_lt_self (by omega) (by omega)
          have := natCharsAux_len1 f ((k + 1) / 10) hd hd2 (by omega)
          simp [this]

theorem natCharsAux_len3 : ∀ fuel n, 100 ≤ n → n < 1000 → n ≤ fuel →
    (natCharsAux fuel n).length = 3 := by
  intro fuel n h1 h2 hf
  cases fuel with
  | zero => omega
  | succ f =>
      cases n with
      | zero => omega
      | succ k =>
          rw [natCharsAux]
          have hd : 10 ≤ (k + 1) / 10 := Nat.le_div_iff_mul_le (by omega) |>.mpr (by omega)
          have hd2 : (k + 1) / 10 < 100 := by omega
          have hlt : (k + 1) / 10 < k + 1 := Nat.div_lt_self (by omega) (by omega)
          have := natCharsAux_len2 f ((k + 1) / 10) hd hd2 (by omega)
          simp [this]

theorem natCharsAux_len4 : ∀ fuel n, 1000 ≤ n → n < 10000 → n ≤ fuel →
    (natCharsAux fuel n).length = 4 := by
  intro fuel n h1 h2 hf
  cases fuel with
  | zero => omega
  | succ f =>
      cases n with
      | zero => omega
      | succ k =>
          rw [natCharsAux]
          have hd : 100 ≤ (k + 1) / 10 := Nat.le_div_iff_mul_le (by omega) |>.mpr (by omega)
          have hd2 : (k + 1) / 10 < 1000 := by omega
          have hlt : (k + 1) / 10 < k + 1 := Nat.div_lt_self (by omega) (by omega)
          have := natCharsAux_len3 f ((k + 1) / 10) hd hd2 (by omega)
          simp [this]

theorem natChars_len1 {n : Nat} (h1 : 1 ≤ n) (h2 : n ≤ 9) :
    (natChars n).length = 1 := by
  rw [natChars, if_neg (by omega), List.length_reverse]
  exact natCharsAux_len1 n n (by omega) (by omega) (by omega)

theorem natChars_len2 {n : Nat} (h1 : 10 ≤ n) (h2 : n ≤ 99) :
    (natChars n).length = 2 := by
  rw [natChars, if_neg (by omega), List.length_reverse]
  exact natCharsAux_len2 n n (by omega) (by omega) (by omega)

theorem natChars_len4 {n : Nat} (h1 : 1000 ≤ n) (h2 : n ≤ 9999) :
    (natChars n).length = 4 := by
  rw [natChars, if_neg (by omega), List.length_reverse]
  exact natCharsAux_len4 n n (by omega) (by omega) (by omega)

theorem natChars_length_pos (n : Nat) : 0 < (natChars n).length := by
  rw [natChars]
  split
  · decide
  · rw [List.length_reverse]
    cases hn : n with
    | zero => omega
    | succ k =>
        rw [natCharsAux]
        simp

theorem length_eq_one {α : Type} {l : List α} (h : l.length = 1) : ∃ a, l = [a] := by
  rcases l with _ | ⟨a, _ | ⟨b, l⟩⟩ <;> simp_all

theorem length_eq_two {α : Type} {l : List α} (h : l.length = 2) :
    ∃ a b, l = [a, b] := by
  rcases l with _ | ⟨a, _ | ⟨b, _ | ⟨c, l⟩⟩⟩ <;> simp_all

theorem length_eq_four {α : Type} {l : List α} (h : l.length = 4) :
    ∃ a b c d, l = [a, b, c, d] := by
  rcases l with _ | ⟨a, _ | ⟨b, _ | ⟨c, _ | ⟨d, _ | ⟨e, l⟩⟩⟩⟩⟩ <;> simp_all

/-- The signature produced for a valid contemporary date is a whole-string
match of `DATE_SIGNATURE_REGEX`. -/
theorem sigMatch_signature {y m d : Nat} (hy1 : 1000 ≤ y) (hy2 : y ≤ 9999)
    (hm1 : 1 ≤ m) (hm2 : m ≤ 12) (hd1 : 1 ≤ d) (hd2 : d ≤ 31) :
    sigMatch (signature y m d) = true := by
  obtain ⟨a, b, c, d4, hY⟩ := length_eq_four (natChars_len4 hy1 hy2)
  have hdY := natChars_digits y
  rw [hY] at hdY
  have ha := hdY a (by simp)
  have hb := hdY b (by simp)
  have hc := hdY c (by simp)
  have hd4 := hdY d4 (by simp)
  have hdM := natChars_digits m
  have hdD := natChars_digits d
  rcases Nat.lt_or_ge m 10 with hm | hm
  · obtain ⟨e, hM⟩ := length_eq_one (natChars_len1 hm1 (by omega))
    rw [hM] at hdM
    have he := hdM e (by simp)
    rcases Nat.lt_or_ge d 10 with hd | hd
    · obtain ⟨f, hD⟩ := length_eq_one (natChars_len1 hd1 (by omega))
      rw [hD] at hdD
      have hf := hdD f (by simp)
      rw [signature, hY, hM, hD]
      simp [sigMatch, tailMatch, ha, hb, hc, hd4, he, hf]
    · obtain ⟨f, g, hD⟩ := length_eq_two (natChars_len2 hd (by omega))
      rw [hD] at hdD
      have hf := hdD f (by simp)
      have hg := hdD g (by simp)
      rw [signature, hY, hM, hD]
      simp [sigMatch, tailMatch, ha, hb, hc, hd4, he, hf, hg]
  · obtain ⟨e, e', hM⟩ := length_eq_two (natChars_len2 hm (by omega))
    rw [hM] at hdM
    have he := hdM e (by simp)
    have he' := hdM e' (by simp)
    rcases Nat.lt_or_ge d 10 with hd | hd
    · obtain ⟨f, hD⟩ := length_eq_one (natChars_len1 hd1 (by omega))
      rw [hD] at hdD
      have hf := hdD f (by simp)
      rw [signature, hY, hM, hD]
      simp [sigMatch, tailMatch, ha, hb, hc, hd4, he, he', hf]
    · obtain ⟨f, g, hD⟩ := length_eq_two (natChars_len2 hd (by omega))
      rw [hD] at hdD
      have hf := hdD f (by simp)
      have hg := hdD g (by simp)
      rw [signature, hY, hM, hD]
      simp [sigMatch, tailMatch, ha, hb, hc, hd4, he, he', hf, hg]

/-- A match of the tail pattern is 7 to 9 characters long. -/
theorem tailMatch_len {r : List Char} (h : tailMatch r = true) :
    7 ≤ r.length ∧ r.length ≤ 9 := by
  rcases r with _ | ⟨a, _ | ⟨b, _ | ⟨c, _ | ⟨d, _ | ⟨e, _ | ⟨f, _ | ⟨g, _ | ⟨h8,
    _ | ⟨i, _ | ⟨j, r⟩⟩⟩⟩⟩⟩⟩⟩⟩⟩ <;>
      simp [tailMatch] at h ⊢

/-- A match of the full signature pattern is 16 to 18 characters long. -/
theorem sigMatch_len {u : List Char} (h : sigMatch u = true) :
    16 ≤ u.length ∧ u.length ≤ 18 := by
  rcases u with _ | ⟨c1, u⟩
  · simp [sigMatch] at h
  rcases u with _ | ⟨c2, u⟩
  · simp [sigMatch] at h
  rcases u with _ | ⟨c3, u⟩
  · simp [sigMatch] at h
  rcases u with _ | ⟨c4, u⟩
  · simp [sigMatch] at h
  rcases u with _ | ⟨c5, u⟩
  · simp [sigMatch] at h
  rcases u with _ | ⟨y1, u⟩
  · simp [sigMatch] at h
  rcases u with _ | ⟨y2, u⟩
  · simp [sigMatch] at h
  rcases u with _ | ⟨y3, u⟩
  · simp [sigMatch] at h
  rcases u with _ | ⟨y4, rest⟩
  · simp [sigMatch] at h
  simp only [sigMatch, Bool.and_eq_true] at h
  have := tailMatch_len h.2
  simp only [List.length_cons]
  omega

/-- No string whose third character is a newline matches the pattern (the
pattern's third character is a space). -/
theorem sigMatch_mid_false (a b : Char) (rest : List Char) :
    sigMatch (a :: b :: '\n' :: rest) = false := by
  rcases rest with _ | ⟨d, _ | ⟨e, _ | ⟨f, _ | ⟨g, _ | ⟨h1, _ | ⟨i, r⟩⟩⟩⟩⟩⟩ <;>
    simp [sigMatch]

/-- A signature appended after a nonempty remainder of the user text can
never itself be a match: one or two extra leading characters collide with
the `\n\n ` prefix, and three or more exceed the maximal match length. -/
theorem sigMatch_append_false (r sig : List Char) (hr : r ≠ [])
    (hlen : 16 ≤ sig.length) (hshape : ∃ rest, sig = '\n' :: '\n' :: rest) :
    sigMatch (r ++ sig) = false := by
  obtain ⟨rest, hrest⟩ := hshape
  rcases r with _ | ⟨c1, _ | ⟨c2, r'⟩⟩
  · exact absurd rfl hr
  · rw [hrest]
    exact sigMatch_mid_false c1 '\n' rest
  · rcases r' with _ | ⟨c3, r''⟩
    · rw [hrest]
      exact sigMatch_mid_false c1 c2 ('\n' :: rest)
    · cases hb : sigMatch ((c1 :: c2 :: c3 :: r'') ++ sig) with
      | false => rfl
      | true =>
          have hle := (sigMatch_len hb).2
          rw [List.length_append] at hle
          simp at hle
          omega

/-- The leftmost (and only) match position in `t ++ signature` is `t.length`. -/
theorem firstSigPos_append (t sig : List Char) (hmatch : sigMatch sig = true)
    (hlen : 16 ≤ sig.length) (hshape : ∃ rest, sig = '\n' :: '\n' :: rest) :
    firstSigPos (t ++ sig) = some t.length := by
  induction t with
  | nil =>
      obtain ⟨rest, hrest⟩ := hshape
      subst hrest
      simp [firstSigPos, hmatch]
  | cons c t ih =>
      have hfalse : sigMatch ((c :: t) ++ sig) = false :=
        sigMatch_append_false (c :: t) sig (by simp) hlen hshape
      rw [List.cons_append, firstSigPos]
      rw [List.cons_append] at hfalse
      rw [hfalse]
      simp [ih]

/-- The signature of a valid contemporary date is at least 16 characters
long (4-digit year, at least one digit each for month and day). -/
theorem signature_length {y m d : Nat} (hy1 : 1000 ≤ y) (hy2 : y ≤ 9999) :
    16 ≤ (signature y m d).length := by
  have hy := natChars_len4 hy1 hy2
  have hm := natChars_length_pos m
  have hd := natChars_length_pos d
  simp [signature]
  omega

/-- Claim C4: for text `t` that does not itself carry a trailing signature
(stripping it is the identity) and a valid date, stripping the signature from
the result of appending one returns `t` unchanged. -/
theorem strip_append_roundtrip (t : List Char) (y m d : Nat)
    (hy1 : 1000 ≤ y) (hy2 : y ≤ 9999) (hm1 : 1 ≤ m) (hm2 : m ≤ 12)
    (hd1 : 1 ≤ d) (hd2 : d ≤ 31) (_ht : stripSignature t = t) :
    stripSignature (appendSignature t y m d) = t := by
  have hpos := firstSigPos_append t (signature y m d)
    (sigMatch_signature hy1 hy2 hm1 hm2 hd1 hd2) (signature_length hy1 hy2) ⟨_, rfl⟩
  rw [appendSignature, stripSignature, hpos]
  exact List.take_left t (signature y m d)

/-- Witness for C4: the spec's concrete example
`stripSignature(appendSignature("hello", {2024,3,5})) == "hello"`. -/
theorem strip_append_roundtrip_witness :
    stripSignature (appendSignature (strOf "hello") 2024 3 5) = strOf "hello" :=
  strip_append_roundtrip (strOf "hello") 2024 3 5 (by decide) (by decide)
    (by decide) (by decide) (by decide) (by decide) (by decide)

/-- A reported match position is within the string and the suffix there
matches the pattern. -/
theorem firstSigPos_spec {s : List Char} {p : Nat} (h : firstSigPos s = some p) :
    p ≤ s.length ∧ sigMatch (s.drop p) = true := by
  induction s generalizing p with
  | nil =>
      rw [firstSigPos] at h
      simp [show sigMatch [] = false from rfl] at h
  | cons c rest ih =>
      rw [firstSigPos] at h
      by_cases hm : sigMatch (c :: rest) = true
      · rw [if_pos hm] at h
        obtain rfl : p = 0 := by simpa using h.symm
        exact ⟨Nat.zero_le _, hm⟩
      · rw [if_neg hm] at h
        rcases hrec : firstSigPos rest with _ | p'
        · rw [hrec] at h
          simp at h
        · rw [hrec] at h
          obtain rfl : p = p' + 1 := by simpa using h.symm
          obtain ⟨hle, hmatch⟩ := ih hrec
          exact ⟨by simpa using hle, by simpa using hmatch⟩

/-- If stripping is the identity — the text carries no trailing signature —
then no match position exists at all. -/
theorem firstSigPos_of_strip_self {s : List Char} (h : stripSignature s = s) :
    firstSigPos s = none := by
  rcases hp : firstSigPos s with _ | p
  · rfl
  · exfalso
    obtain ⟨hle, hmatch⟩ := firstSigPos_spec hp
    have h16 := (sigMatch_len hmatch).1
    rw [List.length_drop] at h16
    have hlt : p < s.length := by omega
    simp only [stripSignature, hp] at h
    have := congrArg List.length h
    rw [List.length_take] at this
    omega

/-- With no match present, the trailing-signature count is zero for any
fuel. -/
theorem trailingSigCountAux_none {s : List Char} (h : firstSigPos s = none) :
    ∀ fuel, trailingSigCountAux fuel s = 0 := by
  intro fuel
  cases fuel with
  | zero => rfl
  | succ f => rw [trailingSigCountAux, h]

/-- One signed save stores exactly one trailing signature, provided the
trimmed editor text does not itself end with a signature. -/
theorem trailingSigCount_append (T : List Char) (y m d : Nat)
    (hy1 : 1000 ≤ y) (hy2 : y ≤ 9999) (hm1 : 1 ≤ m) (hm2 : m ≤ 12)
    (hd1 : 1 ≤ d) (hd2 : d ≤ 31) (hT : stripSignature T = T) :
    trailingSigCount (T ++ signature y m d) = 1 := by
  have hpos := firstSigPos_append T (signature y m d)
    (sigMatch_signature hy1 hy2 hm1 hm2 hd1 hd2) (signature_length hy1 hy2) ⟨_, rfl⟩
  have hlen : (T ++ signature y m d).length = T.length + (signature y m d).length :=
    List.length_append _ _
  have hsig16 : 16 ≤ (signature y m d).length := signature_length hy1 hy2
  obtain ⟨K, hK⟩ : ∃ K, (T ++ signature y m d).length = K + 1 :=
    ⟨T.length + ((signature y m d).length - 1), by omega⟩
  rw [trailingSigCount, hK, trailingSigCountAux, hpos]
  show 1 + trailingSigCountAux K (List.take T.length (T ++ signature y m d)) = 1
  rw [List.take_left, trailingSigCountAux_none (firstSigPos_of_strip_self hT)]

/-- Claim C5 (amended): over any sequence of saves for one date in which
every save's trimmed editor text does not itself end with the signature
pattern, the stored note text (when present) carries exactly one trailing
signature suffix — in particular never a compounded pair. -/
theorem runSaveOps_single_signature (ops : List SaveOp)
    (hops : ∀ op ∈ ops, 1000 ≤ op.year ∧ op.year ≤ 9999 ∧ 1 ≤ op.month ∧
      op.month ≤ 12 ∧ 1 ≤ op.day ∧ op.day ≤ 31 ∧
      stripSignature (trim op.text) = trim op.text) :
    ∀ s, runSaveOps none ops = some s → trailingSigCount s = 1 := by
  have main : ∀ (l : List SaveOp) (init : Option (List Char)),
      (∀ op ∈ l, 1000 ≤ op.year ∧ op.year ≤ 9999 ∧ 1 ≤ op.month ∧
        op.month ≤ 12 ∧ 1 ≤ op.day ∧ op.day ≤ 31 ∧
        stripSignature (trim op.text) = trim op.text) →
      (∀ s, init = some s → trailingSigCount s = 1) →
      ∀ s, runSaveOps init l = some s → trailingSigCount s = 1 := by
    intro l
    induction l with
    | nil => intro init _ hinit s hs; exact hinit s hs
    | cons op rest ih =>
        intro init hl hinit s hs
        obtain ⟨hy1, hy2, hm1, hm2, hd1, hd2, hstrip⟩ := hl op (by simp)
        refine ih (saveNoteText op.text op.year op.month op.day)
          (fun o ho => hl o (by simp [ho])) ?_ s hs
        intro s' hs'
        rw [saveNoteText] at hs'
        split at hs'
        · exact absurd hs' (by simp)
        · obtain rfl : s' = trim op.text ++ signature op.year op.month op.day := by
            simpa using hs'.symm
          exact trailingSigCount_append _ _ _ _ hy1 hy2 hm1 hm2 hd1 hd2 hstrip
  exact main ops none hops (by simp)

/-- Witness for the amended C5: two sequential saves of distinct contents for
the same date leave exactly one signature suffix. -/
theorem runSaveOps_single_signature_witness :
    trailingSigCount (strOf "second note" ++ signature 2024 3 6) = 1 :=
  runSaveOps_single_signature
    [⟨strOf "first", 2024, 3, 5⟩, ⟨strOf "second note", 2024, 3, 6⟩]
    (by decide) (strOf "second note" ++ signature 2024 3 6) (by decide)

/-- Counterexample to Claim C5 as stated: a save whose editor text itself
ends with a signature-shaped line produces a stored text carrying two
trailing signature suffixes, so "never more than one trailing signature"
fails for unrestricted editor text. -/
theorem note_double_signature_counterexample :
    runSaveOps none [⟨strOf "x\n\n — 2024. 3. 5.", 2025, 1, 1⟩] =
      some (strOf "x\n\n — 2024. 3. 5." ++ signature 2025 1 1) ∧
    trailingSigCount (strOf "x\n\n — 2024. 3. 5." ++ signature 2025 1 1) = 2 := by
  constructor
  · decide
  · decide

end Jungbub
